import Mathlib

/-!
Verification of the Billboard scraping-and-aggregation core of
`1a_data_billboard.ipynb` (topic-modeling-country-music).

The notebook's functions are shallowly embedded:

* `generate_dates`, `scrape_week`, `scrape_billboard` mirror the Python
  functions of the same names; dates are handled through CPython's
  `datetime.strptime`/`strftime` semantics for the `%Y-%m-%d` format,
  with a date represented by its proleptic-Gregorian ordinal
  (`datetime.toordinal`, day 1 = 0001-01-01).
* Network access is a parameter `fetch : String → Page`, where a `Page`
  abstracts the parsed HTML document as the ordered list of its elements,
  each carrying a CSS class and a text content; `find_all(class_=c)`
  becomes `findAll page c`.
* Python exceptions (`ValueError` from `strptime`, `OverflowError` from
  `datetime` underflow) become `Except PyError`.
* The pandas aggregation cells (flatten, `groupby(['title','artist'])`
  `['week'].apply(','.join)`, `week_count`) become `flatten_tracks` and
  `aggregate`; pandas `groupby` sorts group keys lexicographically and
  keeps row order inside each group, which is modelled by an insertion
  sort over the deduplicated key list and an order-preserving filter.
-/

namespace Billboard

/-! ### Python string primitives -/

/-- Whitespace stripping, modelling Python `str.strip()`. -/
def pyStrip (s : String) : String :=
  ⟨((s.data.dropWhile Char.isWhitespace).reverse.dropWhile Char.isWhitespace).reverse⟩

/-- Python slice `s[-10:]`: the last `n` characters (the whole string when shorter). -/
def takeLast (s : String) (n : Nat) : String :=
  ⟨s.data.drop (s.data.length - n)⟩

/-- Splitting a character list at every comma, modelling Python `str.split(',')`
(which returns `[""]` on the empty string). -/
def splitC : List Char → List (List Char)
  | [] => [[]]
  | c :: cs =>
    if c = ',' then [] :: splitC cs
    else
      match splitC cs with
      | [] => [[c]]
      | w :: ws => (c :: w) :: ws

/-- Joining character lists with comma separators, modelling Python `','.join`. -/
def joinC : List (List Char) → List Char
  | [] => []
  | [w] => w
  | w :: w2 :: ws => w ++ ',' :: joinC (w2 :: ws)

/-- Python `s.split(',')`. -/
def pySplitComma (s : String) : List String :=
  (splitC s.data).map fun w => ⟨w⟩

/-- Python `','.join(ws)`. -/
def pyJoinComma (ws : List String) : String :=
  ⟨joinC (ws.map String.data)⟩

/-- Decimal digit character for `n < 10`. -/
def natDigit (n : Nat) : Char := Char.ofNat (48 + n)

/-- Decimal digit characters of a natural number (fuel-based). -/
def natDigitsAux : Nat → Nat → List Char
  | 0, _ => []
  | fuel + 1, n =>
    if n < 10 then [natDigit n]
    else natDigitsAux fuel (n / 10) ++ [natDigit (n % 10)]

/-- Unpadded decimal representation (glibc `%Y` does not zero-pad). -/
def natToStr (n : Nat) : String := ⟨natDigitsAux (n + 1) n⟩

/-- Two-digit zero-padded decimal field (`%m`, `%d`). -/
def pad2 (n : Nat) : String := ⟨[natDigit (n / 10 % 10), natDigit (n % 10)]⟩

/-! ### Gregorian calendar, `datetime.strptime` / `strftime` -/

/-- Gregorian leap-year test, as in CPython's `datetime` module. -/
def isLeap (y : Nat) : Bool := y % 4 == 0 && (y % 100 != 0 || y % 400 == 0)

/-- Number of days in month `m` of year `y`. -/
def daysInMonth (y m : Nat) : Nat :=
  if m = 2 then (if isLeap y then 29 else 28)
  else if m = 4 ∨ m = 6 ∨ m = 9 ∨ m = 11 then 30 else 31

/-- Days in year `y` strictly before month `m`. -/
def daysBeforeMonth (y : Nat) : Nat → Nat
  | 0 => 0
  | 1 => 0
  | m + 1 => daysBeforeMonth y m + daysInMonth y m

/-- Proleptic-Gregorian ordinal of a date, as `datetime.toordinal`
(0001-01-01 has ordinal 1). -/
def pyToOrdinal (y m d : Nat) : Nat :=
  365 * (y - 1) + (y - 1) / 4 - (y - 1) / 100 + (y - 1) / 400 + daysBeforeMonth y m + d

/-- Numeric value of a digit character. -/
def digitVal (c : Char) : Nat := c.toNat - 48

/-- Month field of `strptime`, regex `1[0-2]|0[1-9]|[1-9]` (no backtracking is
needed: a two-digit match can only be followed by a failure the one-digit
fallback would also hit, since the second digit can never equal the `-`
separator). Returns the value and the unconsumed characters. -/
def parseMonthChars : List Char → Option (Nat × List Char)
  | c1 :: c2 :: rest =>
    if c1 = '1' ∧ (c2 = '0' ∨ c2 = '1' ∨ c2 = '2') then some (10 + digitVal c2, rest)
    else if c1 = '0' ∧ c2.isDigit ∧ c2 ≠ '0' then some (digitVal c2, rest)
    else if c1.isDigit ∧ c1 ≠ '0' then some (digitVal c1, c2 :: rest)
    else none
  | [c1] => if c1.isDigit ∧ c1 ≠ '0' then some (digitVal c1, []) else none
  | [] => none

/-- Day field of `strptime`, regex `3[01]|[12]\d|0[1-9]|[1-9]`. -/
def parseDayChars : List Char → Option (Nat × List Char)
  | c1 :: c2 :: rest =>
    if c1 = '3' ∧ (c2 = '0' ∨ c2 = '1') then some (30 + digitVal c2, rest)
    else if (c1 = '1' ∨ c1 = '2') ∧ c2.isDigit then some (10 * digitVal c1 + digitVal c2, rest)
    else if c1 = '0' ∧ c2.isDigit ∧ c2 ≠ '0' then some (digitVal c2, rest)
    else if c1.isDigit ∧ c1 ≠ '0' then some (digitVal c1, c2 :: rest)
    else none
  | [c1] => if c1.isDigit ∧ c1 ≠ '0' then some (digitVal c1, []) else none
  | [] => none

/-- Parsing of `datetime.strptime(s, '%Y-%m-%d')` followed by `.toordinal()`:
exactly four year digits, the full string must be consumed, the day must fit
the month, and the year must be at least `MINYEAR = 1`.  `none` models the
`ValueError` CPython raises on any malformed input. -/
def pyStrptime (s : String) : Option Nat :=
  match s.data with
  | y1 :: y2 :: y3 :: y4 :: '-' :: rest =>
    if y1.isDigit ∧ y2.isDigit ∧ y3.isDigit ∧ y4.isDigit then
      let y := 1000 * digitVal y1 + 100 * digitVal y2 + 10 * digitVal y3 + digitVal y4
      match parseMonthChars rest with
      | some (m, '-' :: rest2) =>
        match parseDayChars rest2 with
        | some (d, []) =>
          if 1 ≤ y ∧ d ≤ daysInMonth y m then some (pyToOrdinal y m d) else none
        | _ => none
      | _ => none
    else none
  | _ => none

/-- Inverse of `pyToOrdinal` (civil-from-days), as used by `datetime.fromordinal`. -/
def ord2ymd (o : Nat) : Nat × Nat × Nat :=
  let z := o + 305
  let era := z / 146097
  let doe := z % 146097
  let yoe := (doe - doe / 1460 + doe / 36524 - doe / 146096) / 365
  let y := yoe + era * 400
  let doy := doe - (365 * yoe + yoe / 4 - yoe / 100)
  let mp := (5 * doy + 2) / 153
  let d := doy - (153 * mp + 2) / 5 + 1
  let m := if mp < 10 then mp + 3 else mp - 9
  (if m ≤ 2 then y + 1 else y, m, d)

/-- Formatting of `datetime.fromordinal(o).strftime('%Y-%m-%d')`. -/
def pyStrftime (o : Nat) : String :=
  natToStr (ord2ymd o).1 ++ "-" ++ pad2 (ord2ymd o).2.1 ++ "-" ++ pad2 (ord2ymd o).2.2

/-! ### Python exceptions -/

/-- Exceptions the embedded code can raise: `ValueError` from `strptime`,
`OverflowError` from stepping a `datetime` below `date.min`. -/
inductive PyError where
  | valueError
  | overflowError
deriving DecidableEq

instance {ε α : Type} [DecidableEq ε] [DecidableEq α] : DecidableEq (Except ε α) :=
  fun a b =>
    match a, b with
    | .ok x, .ok y => if h : x = y then isTrue (by rw [h]) else isFalse (by simp [h])
    | .error x, .error y => if h : x = y then isTrue (by rw [h]) else isFalse (by simp [h])
    | .ok _, .error _ => isFalse (by simp)
    | .error _, .ok _ => isFalse (by simp)

/-! ### `generate_dates` -/

/-- One step of `week = week - timedelta(days=7)` on a `datetime` held as an
ordinal; CPython raises `OverflowError` when the result would fall below
`date.min` (ordinal 1). -/
def subWeek (o : Nat) : Option Nat := if 8 ≤ o then some (o - 7) else none

/-- Loop body of `generate_dates`: starting from ordinal `o`, append the
formatted week then step back 7 days, `n` times (the step is executed on
every iteration, including the last, exactly as in the Python `while` loop). -/
def genDates : Nat → Nat → Except PyError (List String)
  | _, 0 => .ok []
  | o, n + 1 =>
    match subWeek o with
    | none => .error .overflowError
    | some o2 => (genDates o2 n).map fun tail => pyStrftime o :: tail

/-- Embedding of `generate_dates(first_week, weeks)`: parse the start week with
`strptime` (a `ValueError` on malformed input), then run the `while i < weeks`
loop — which produces the empty list whenever `weeks ≤ 0`. -/
def generate_dates (first_week : String) (weeks : Int) : Except PyError (List String) :=
  match pyStrptime first_week with
  | none => .error .valueError
  | some o => genDates o weeks.toNat

/-! ### `scrape_week` -/

/-- Abstraction of a parsed HTML document: its elements in document order,
each as a `(css class, text content)` pair. -/
abbrev Page := List (String × String)

/-- BeautifulSoup `soup.find_all(class_=cls)` followed by `.text` on each hit. -/
def findAll (page : Page) (cls : String) : List String :=
  (page.filter fun e => e.1 == cls).map fun e => e.2

/-- CSS class selecting song titles in the chart markup. -/
def titleClass : String := "chart-list-item__title-text"

/-- CSS class selecting artists in the chart markup. -/
def artistClass : String := "chart-list-item__artist"

/-- CSS class selecting chart ranks in the chart markup. -/
def rankClass : String := "chart-list-item__rank"

/-- Result of one scraped week, the four parallel columns the Python function
returns as `[songlist, artistlist, rankslist, weekslist]`. -/
structure WeekRecord where
  songs : List String
  artists : List String
  ranks : List String
  weeks : List String
deriving DecidableEq

/-- Embedding of `scrape_week(url)`, with the network request abstracted by
`fetch`: select the three columns by CSS class, strip each text, and tag
`len(songlist)` copies of the trailing 10 characters of the URL as the week
column. -/
def scrape_week (fetch : String → Page) (url : String) : WeekRecord :=
  let page := fetch url
  let songlist := (findAll page titleClass).map pyStrip
  let artistlist := (findAll page artistClass).map pyStrip
  let rankslist := (findAll page rankClass).map pyStrip
  let weekslist := List.replicate songlist.length (takeLast url 10)
  ⟨songlist, artistlist, rankslist, weekslist⟩

/-! ### `scrape_billboard` -/

/-- Python `int(round(d / 7))` for an integer day difference `d`: the nearest
integer to `d / 7`.  Exact halves never arise (7 is odd), so banker's rounding
and floating-point evaluation coincide with `⌊(2d + 7) / 14⌋`. -/
def nearestDiv7 (d : Int) : Int := (2 * d + 7) / 14

/-- Embedding of `scrape_billboard(first_week, last_week, url)`: compute
`n_weeks = int(round((first - last).days / 7))`, generate the dates, build one
URL per date and map `scrape_week` over them (the pool's `imap` preserves
input order). -/
def scrape_billboard (first_week last_week url : String) (fetch : String → Page) :
    Except PyError (List WeekRecord) :=
  match pyStrptime first_week, pyStrptime last_week with
  | some f, some l =>
    let n_weeks : Int := nearestDiv7 ((f : Int) - (l : Int))
    (generate_dates first_week n_weeks).map fun date_list =>
      (date_list.map fun week => url ++ week).map fun u => scrape_week fetch u
  | _, _ => .error .valueError

/-! ### Aggregation (pandas cells) -/

/-- One row of `tracks_df` after the flattening cell. -/
structure Row where
  title : String
  artist : String
  rank : String
  week : String
deriving DecidableEq

/-- Row-wise pairing of the four flattened columns of the DataFrame. -/
def zip4 : List String → List String → List String → List String → List Row
  | t :: ts, a :: art, r :: rs, w :: ws => ⟨t, a, r, w⟩ :: zip4 ts art rs ws
  | _, _, _, _ => []

/-- Embedding of the flattening cell: each of the four columns is the
concatenation of the per-week lists, and the DataFrame pairs them row-wise. -/
def flatten_tracks (records : List WeekRecord) : List Row :=
  zip4 ((records.map WeekRecord.songs).flatten) ((records.map WeekRecord.artists).flatten)
    ((records.map WeekRecord.ranks).flatten) ((records.map WeekRecord.weeks).flatten)

/-- Grouping key of `groupby(['title', 'artist'])`. -/
def rowKey (r : Row) : String × String := (r.title, r.artist)

/-- Code-point lexicographic comparison of character lists — the order Python
uses to compare strings (and hence the order pandas sorts group keys by). -/
def lexLt : List Char → List Char → Bool
  | _, [] => false
  | [], _ :: _ => true
  | x :: xs, y :: ys => if x < y then true else if y < x then false else lexLt xs ys

/-- Python `s < t` on strings. -/
def strLtB (s t : String) : Bool := lexLt s.data t.data

/-- Python `s <= t` on strings. -/
def strLeB (s t : String) : Bool := !strLtB t s

/-- Lexicographic order on `(title, artist)` keys, as pandas sorts the groups. -/
def keyLE (a b : String × String) : Prop :=
  strLtB a.1 b.1 = true ∨ (a.1 = b.1 ∧ strLeB a.2 b.2 = true)

instance : DecidableRel keyLE := fun a b =>
  inferInstanceAs (Decidable (strLtB a.1 b.1 = true ∨ (a.1 = b.1 ∧ strLeB a.2 b.2 = true)))

/-- One row of the aggregated `tracks_df`: the group key, the comma-joined
week identifiers, and the `week_count` column. -/
structure TrackRow where
  title : String
  artist : String
  weeks : String
  week_count : Nat
deriving DecidableEq

/-- Embedding of the aggregation cells: `groupby(['title','artist'])` sorts
the distinct keys lexicographically and, per group, keeps the member rows in
their original order; `['week'].apply(','.join)` joins the group's week
identifiers; `week_count` is `len(weeks.split(','))`. -/
def aggregate (rows : List Row) : List TrackRow :=
  (((rows.map rowKey).dedup).insertionSort keyLE).map fun k =>
    let ws := (rows.filter fun r => rowKey r == k).map Row.week
    let joined := pyJoinComma ws
    ⟨k.1, k.2, joined, (pySplitComma joined).length⟩

/-! ### Order lemmas for `lexLt` and `keyLE` -/

lemma lexLt_irrefl (xs : List Char) : lexLt xs xs = false := by
  induction xs with
  | nil => rfl
  | cons x xs ih => simp [lexLt, lt_irrefl, ih]

lemma lexLt_trans : ∀ xs ys zs : List Char,
    lexLt xs ys = true → lexLt ys zs = true → lexLt xs zs = true := by
  intro xs
  induction xs with
  | nil =>
    intro ys zs hxy hyz
    cases ys with
    | nil => exact hyz
    | cons y ys =>
      cases zs with
      | nil => simp [lexLt] at hyz
      | cons z zs => simp [lexLt]
  | cons x xs ih =>
    intro ys zs hxy hyz
    cases ys with
    | nil => simp [lexLt] at hxy
    | cons y ys =>
      cases zs with
      | nil => simp [lexLt] at hyz
      | cons z zs =>
        simp only [lexLt] at hxy hyz ⊢
        rcases lt_trichotomy x y with h1 | h1 | h1
        · rcases lt_trichotomy y z with h2 | h2 | h2
          · simp [h1.trans h2]
          · subst h2; simp [h1]
          · rcases lt_trichotomy x z with h3 | h3 | h3
            · simp [h3]
            · subst h3
              simp [h2, asymm h2] at hyz
            · simp [h2, asymm h2] at hyz
        · subst h1
          simp only [lt_irrefl, if_false] at hxy
          rcases lt_trichotomy x z with h3 | h3 | h3
          · simp [h3]
          · subst h3
            simp only [lt_irrefl, if_false] at hyz ⊢
            exact ih ys zs hxy hyz
          · simp [h3, asymm h3] at hyz
        · simp [h1, asymm h1] at hxy

lemma lexLt_connect : ∀ xs ys : List Char,
    lexLt xs ys = false → lexLt ys xs = false → xs = ys := by
  intro xs
  induction xs with
  | nil =>
    intro ys hxy _
    cases ys with
    | nil => rfl
    | cons y ys => simp [lexLt] at hxy
  | cons x xs ih =>
    intro ys hxy hyx
    cases ys with
    | nil => simp [lexLt] at hyx
    | cons y ys =>
      simp only [lexLt] at hxy hyx
      rcases lt_trichotomy x y with h1 | h1 | h1
      · simp [h1] at hxy
      · subst h1
        simp only [lt_irrefl, if_false] at hxy hyx
        rw [ih ys hxy hyx]
      · simp [h1] at hyx

lemma strExt {s t : String} (h : s.data = t.data) : s = t := by
  cases s; cases t; exact congrArg String.mk h

instance : IsTotal (String × String) keyLE := by
  constructor
  intro a b
  cases h1 : lexLt a.1.data b.1.data with
  | true => exact Or.inl (Or.inl h1)
  | false =>
    cases h2 : lexLt b.1.data a.1.data with
    | true => exact Or.inr (Or.inl h2)
    | false =>
      have he : a.1 = b.1 := strExt (lexLt_connect _ _ h1 h2)
      cases h3 : lexLt b.2.data a.2.data with
      | false => exact Or.inl (Or.inr ⟨he, by simp [strLeB, strLtB, h3]⟩)
      | true =>
        have h4 : lexLt a.2.data b.2.data = false := by
          cases h4 : lexLt a.2.data b.2.data with
          | false => rfl
          | true =>
            have h5 := lexLt_trans _ _ _ h3 h4
            rw [lexLt_irrefl] at h5
            simp at h5
        exact Or.inr (Or.inr ⟨he.symm, by simp [strLeB, strLtB, h4]⟩)

instance : IsTrans (String × String) keyLE := by
  constructor
  intro a b c hab hbc
  rcases hab with h1 | ⟨e1, h1⟩
  · rcases hbc with h2 | ⟨e2, h2⟩
    · exact Or.inl (lexLt_trans _ _ _ h1 h2)
    · exact Or.inl (e2 ▸ h1)
  · rcases hbc with h2 | ⟨e2, h2⟩
    · exact Or.inl (e1 ▸ h2)
    · refine Or.inr ⟨e1.trans e2, ?_⟩
      have k1 : lexLt b.2.data a.2.data = false := by simpa [strLeB, strLtB] using h1
      have k2 : lexLt c.2.data b.2.data = false := by simpa [strLeB, strLtB] using h2
      have k3 : lexLt c.2.data a.2.data = false := by
        cases h3 : lexLt c.2.data a.2.data with
        | false => rfl
        | true =>
          cases h4 : lexLt a.2.data b.2.data with
          | true => exact absurd (lexLt_trans _ _ _ h3 h4) (by simp [k2])
          | false =>
            have hd : a.2.data = b.2.data := lexLt_connect _ _ h4 k1
            rw [hd] at h3
            exact absurd h3 (by simp [k2])
      simpa [strLeB, strLtB] using k3

/-! ### Lemmas on the comma split/join pair -/

lemma splitC_no_comma (w : List Char) (h : ',' ∉ w) : splitC w = [w] := by
  induction w with
  | nil => rfl
  | cons c cs ih =>
    have hc : ¬ c = ',' := fun hc => h (hc ▸ List.mem_cons_self c cs)
    have hcs : ',' ∉ cs := fun hm => h (List.mem_cons_of_mem c hm)
    simp [splitC, hc, ih hcs]

lemma splitC_append (w rest : List Char) (h : ',' ∉ w) :
    splitC (w ++ ',' :: rest) = w :: splitC rest := by
  induction w with
  | nil => simp [splitC]
  | cons c cs ih =>
    have hc : ¬ c = ',' := fun hc => h (hc ▸ List.mem_cons_self c cs)
    have hcs : ',' ∉ cs := fun hm => h (List.mem_cons_of_mem c hm)
    have hne : splitC (cs ++ ',' :: rest) = cs :: splitC rest := ih hcs
    simp [splitC, hc, hne]

lemma splitC_joinC (ws : List (List Char)) (h0 : ws ≠ []) (hc : ∀ w ∈ ws, ',' ∉ w) :
    splitC (joinC ws) = ws := by
  induction ws with
  | nil => exact absurd rfl h0
  | cons w ws ih =>
    cases ws with
    | nil => exact splitC_no_comma w (hc w (List.mem_cons_self w []))
    | cons w2 ws2 =>
      have hw : ',' ∉ w := hc w (List.mem_cons_self _ _)
      have hrest : ∀ u ∈ w2 :: ws2, ',' ∉ u := fun u hu => hc u (List.mem_cons_of_mem _ hu)
      calc splitC (joinC (w :: w2 :: ws2))
          = splitC (w ++ ',' :: joinC (w2 :: ws2)) := by rw [joinC]
        _ = w :: splitC (joinC (w2 :: ws2)) := splitC_append w _ hw
        _ = w :: w2 :: ws2 := by rw [ih (by simp) hrest]

lemma pySplit_pyJoin (ws : List String) (h0 : ws ≠ []) (hc : ∀ w ∈ ws, ',' ∉ w.data) :
    pySplitComma (pyJoinComma ws) = ws := by
  unfold pySplitComma pyJoinComma
  rw [splitC_joinC (ws.map String.data) (by simpa using h0)
    (by intro w hw; obtain ⟨s, hs, rfl⟩ := List.mem_map.mp hw; exact hc s hs)]
  simp only [List.map_map]
  have hid : ((fun w : List Char => (⟨w⟩ : String)) ∘ String.data) = id := funext fun s => rfl
  rw [hid, List.map_id]

/-! ### Lemmas on `genDates` -/

lemma genDates_of_lt (n : Nat) : ∀ o : Nat, 7 * n < o →
    genDates o n = .ok ((List.range n).map fun i => pyStrftime (o - 7 * i)) := by
  induction n with
  | zero => intro o _; simp [genDates]
  | succ n ih =>
    intro o h
    have h8 : 8 ≤ o := by omega
    have hsub : subWeek o = some (o - 7) := by simp [subWeek, h8]
    rw [genDates, hsub]
    show Except.map (fun tail => pyStrftime o :: tail) (genDates (o - 7) n) = _
    rw [ih (o - 7) (by omega)]
    simp only [Except.map, List.range_succ_eq_map, List.map_cons, List.map_map]
    congr 1
    congr 1
    refine List.map_congr_left fun a _ => ?_
    simp only [Function.comp_apply]
    congr 1
    omega

lemma genDates_ok_inv (n : Nat) : ∀ o : Nat, ∀ l : List String, genDates o n = .ok l →
    l = (List.range n).map fun i => pyStrftime (o - 7 * i) := by
  induction n with
  | zero => intro o l h; simp [genDates] at h; simp [h.symm]
  | succ n ih =>
    intro o l h
    rw [genDates] at h
    cases hsub : subWeek o with
    | none =>
      rw [hsub] at h
      change Except.error PyError.overflowError = Except.ok l at h
      exact Except.noConfusion h
    | some o2 =>
      rw [hsub] at h
      change Except.map (fun tail => pyStrftime o :: tail) (genDates o2 n) = Except.ok l at h
      cases hg : genDates o2 n with
      | error e => rw [hg] at h; exact absurd h (by simp [Except.map])
      | ok tail =>
        rw [hg] at h
        simp only [Except.map, Except.ok.injEq] at h
        have ho2 : o2 = o - 7 := by
          by_cases h8 : 8 ≤ o
          · exact (by simpa [subWeek, h8] using hsub : o - 7 = o2).symm
          · simp [subWeek, h8] at hsub
        have h8 : 8 ≤ o := by
          by_cases h8 : 8 ≤ o
          · exact h8
          · simp [subWeek, h8] at hsub
        subst ho2
        rw [← h, ih _ _ hg]
        simp only [List.range_succ_eq_map, List.map_cons, List.map_map]
        congr 1
        refine List.map_congr_left fun a _ => ?_
        simp only [Function.comp_apply]
        congr 1
        omega

/-! ### Lemmas on `nearestDiv7` and `scrape_billboard` -/

lemma nearestDiv7_nonpos {d : Int} (h : d ≤ 0) : nearestDiv7 d ≤ 0 := by
  unfold nearestDiv7; omega

lemma generate_dates_parse (fw : String) (w : Int) (f : Nat) (hf : pyStrptime fw = some f) :
    generate_dates fw w = genDates f w.toNat := by
  unfold generate_dates; rw [hf]

lemma scrape_billboard_parse (fw lw url : String) (fetch : String → Page) (f l : Nat)
    (hf : pyStrptime fw = some f) (hl : pyStrptime lw = some l) :
    scrape_billboard fw lw url fetch =
      (generate_dates fw (nearestDiv7 ((f : Int) - (l : Int)))).map fun date_list =>
        (date_list.map fun week => url ++ week).map fun u => scrape_week fetch u := by
  unfold scrape_billboard; rw [hf, hl]

lemma scrape_billboard_ok_nil (fw lw url : String) (fetch : String → Page) (f l : Nat)
    (hf : pyStrptime fw = some f) (hl : pyStrptime lw = some l) (hfl : f ≤ l) :
    scrape_billboard fw lw url fetch = .ok [] := by
  have hd : nearestDiv7 ((f : Int) - l) ≤ 0 := nearestDiv7_nonpos (by omega)
  rw [scrape_billboard_parse fw lw url fetch f l hf hl,
    generate_dates_parse fw _ f hf, Int.toNat_of_nonpos hd]
  simp [genDates, Except.map]

/-- Ceiling of `d / 7`, the entry count the specification claims. -/
def ceilDiv7 (d : Int) : Int := (d + 6) / 7

/-! ### Claim theorems -/

/-- C1, counterexample: for the concrete valid pair start `2020-01-01`,
end `2020-01-08` — where start is chronologically before end — `scrape_billboard`
does not fail at all: it returns normally with the empty list, contradicting the
claim that every not-after pair fails with an `InvalidRangeError`. -/
theorem scrape_billboard_inverted_returns_normally :
    pyStrptime "2020-01-01" = some (pyToOrdinal 2020 1 1) ∧
    pyStrptime "2020-01-08" = some (pyToOrdinal 2020 1 8) ∧
    pyToOrdinal 2020 1 1 < pyToOrdinal 2020 1 8 ∧
    scrape_billboard "2020-01-01" "2020-01-08" "u" (fun _ => []) = .ok [] := by
  refine ⟨by decide, by decide, by decide, ?_⟩
  exact scrape_billboard_ok_nil "2020-01-01" "2020-01-08" "u" (fun _ => [])
    (pyToOrdinal 2020 1 1) (pyToOrdinal 2020 1 8) (by decide) (by decide) (by decide)

/-- C1 (amended): a malformed date string makes `scrape_billboard` fail before
any network activity — but with Python's plain `ValueError` from `strptime`,
not a dedicated range check — while a start date that is not chronologically
after the end date is NOT an error: the computed week count is non-positive,
so the function returns normally with an empty result list, for any fetcher. -/
theorem scrape_billboard_error_policy (fw lw url : String) (fetch : String → Page) :
    ((pyStrptime fw = none ∨ pyStrptime lw = none) →
        scrape_billboard fw lw url fetch = .error .valueError) ∧
    (∀ f l : Nat, pyStrptime fw = some f → pyStrptime lw = some l → f ≤ l →
        scrape_billboard fw lw url fetch = .ok []) := by
  constructor
  · intro h
    rcases h with h | h
    · simp [scrape_billboard, h]
    · cases hfw : pyStrptime fw <;> simp [scrape_billboard, hfw, h]
  · intro f l hf hl hfl
    exact scrape_billboard_ok_nil fw lw url fetch f l hf hl hfl

/-- C1, witness for the amended theorem at concrete inputs: the malformed
string `2020-13-01` errors, and the inverted pair returns `ok []`. -/
theorem scrape_billboard_error_policy_witness :
    scrape_billboard "2020-13-01" "2020-01-08" "u" (fun _ => []) = .error .valueError ∧
    scrape_billboard "2021-03-04" "2021-03-18" "u" (fun _ => []) = .ok [] :=
  ⟨(scrape_billboard_error_policy "2020-13-01" "2020-01-08" "u" (fun _ => [])).1
      (Or.inl (by decide)),
   (scrape_billboard_error_policy "2021-03-04" "2021-03-18" "u" (fun _ => [])).2
      (pyToOrdinal 2021 3 4) (pyToOrdinal 2021 3 18) (by decide) (by decide) (by decide)⟩

/-- C2, counterexample: for start `2019-05-12` and end `2019-05-04` the day
difference is 8, so the claimed entry count is `⌈8 / 7⌉ = 2`, but the code
computes `int(round(8 / 7)) = 1` and the scrape produces exactly 1 week. -/
theorem scrape_billboard_count_cex :
    pyStrptime "2019-05-12" = some (pyToOrdinal 2019 5 12) ∧
    pyStrptime "2019-05-04" = some (pyToOrdinal 2019 5 4) ∧
    ceilDiv7 ((pyToOrdinal 2019 5 12 : Int) - pyToOrdinal 2019 5 4) = 2 ∧
    (scrape_billboard "2019-05-12" "2019-05-04" "u" fun _ => []).map List.length =
      .ok 1 := by decide

/-- C2 (amended): for a valid date pair the number of generated entries (and
hence of scraped weeks) is `int(round(days / 7))` — the NEAREST integer to
`days / 7`, not its ceiling — whenever the loop does not underflow
`datetime.min`. -/
theorem scrape_billboard_count (fw lw url : String) (fetch : String → Page) (f l : Nat)
    (hf : pyStrptime fw = some f) (hl : pyStrptime lw = some l)
    (hov : 7 * (nearestDiv7 ((f : Int) - l)).toNat < f) :
    (scrape_billboard fw lw url fetch).map List.length =
      .ok (nearestDiv7 ((f : Int) - l)).toNat := by
  rw [scrape_billboard_parse fw lw url fetch f l hf hl, generate_dates_parse fw _ f hf,
    genDates_of_lt _ _ hov]
  simp [Except.map]

/-- C2, witness at the spec's own scenario: `2019-05-12` down to `2019-04-28`
gives `round(14 / 7) = 2` scraped weeks. -/
theorem scrape_billboard_count_witness :
    7 * (nearestDiv7 ((pyToOrdinal 2019 5 12 : Int) - pyToOrdinal 2019 4 28)).toNat <
      pyToOrdinal 2019 5 12 ∧
    (scrape_billboard "2019-05-12" "2019-04-28" "u" fun _ => []).map List.length =
      .ok (nearestDiv7 ((pyToOrdinal 2019 5 12 : Int) - pyToOrdinal 2019 4 28)).toNat :=
  ⟨by decide,
   scrape_billboard_count "2019-05-12" "2019-04-28" "u" (fun _ => [])
     (pyToOrdinal 2019 5 12) (pyToOrdinal 2019 4 28) (by decide) (by decide) (by decide)⟩

/-- C3 (confirmed): whenever `generate_dates` returns a list for a valid start
date and a positive week count, that list begins with the start date and its
`i`-th entry is the date exactly `7 * i` days before the start — consecutive
entries are exactly 7 days apart, walking backward. -/
theorem generate_dates_steps (s : String) (w : Int) (o : Nat) (l : List String)
    (hp : pyStrptime s = some o) (hok : generate_dates s w = .ok l) (hw : 0 < w) :
    l.head? = some (pyStrftime o) ∧
      ∀ i : Nat, i < l.length → l.get? i = some (pyStrftime (o - 7 * i)) := by
  rw [generate_dates_parse s w o hp] at hok
  have hl : l = (List.range w.toNat).map fun i => pyStrftime (o - 7 * i) :=
    genDates_ok_inv _ _ _ hok
  subst hl
  have hlen : ∀ i : Nat, i < w.toNat →
      ((List.range w.toNat).map fun i => pyStrftime (o - 7 * i)).get? i =
        some (pyStrftime (o - 7 * i)) := by
    intro i hi
    rw [List.get?_map, List.get?_range hi]
    rfl
  have hpos : 0 < w.toNat := by omega
  constructor
  · obtain ⟨m, hm⟩ : ∃ m, w.toNat = m + 1 := ⟨w.toNat - 1, by omega⟩
    rw [hm, List.range_succ_eq_map, List.map_cons, List.head?_cons]
    simp
  · intro i hi
    rw [List.length_map, List.length_range] at hi
    exact hlen i hi

/-- C3, witness at a concrete start date and week count 2. -/
theorem generate_dates_steps_witness :
    pyStrptime "2019-05-12" = some 737191 ∧
    generate_dates "2019-05-12" 2 = .ok ["2019-05-12", "2019-05-05"] ∧
    (["2019-05-12", "2019-05-05"] : List String).head? = some (pyStrftime 737191) ∧
    (["2019-05-12", "2019-05-05"] : List String).get? 1 =
      some (pyStrftime (737191 - 7 * 1)) :=
  ⟨by decide, by decide,
   (generate_dates_steps "2019-05-12" 2 737191 ["2019-05-12", "2019-05-05"]
      (by decide) (by decide) (by decide)).1,
   (generate_dates_steps "2019-05-12" 2 737191 ["2019-05-12", "2019-05-05"]
      (by decide) (by decide) (by decide)).2 1 (by decide)⟩

/-- C10 (confirmed): a non-positive week count makes `generate_dates` return
the empty list, and when the first week parses to a date strictly before the
last week the computed week count is non-positive, so `scrape_billboard`
submits no fetch URL and returns an empty result list without any error. -/
theorem nonpos_weeks_empty (s fw lw url : String) (fetch : String → Page) (w : Int)
    (o f l : Nat) (hs : pyStrptime s = some o) (hw : w ≤ 0)
    (hf : pyStrptime fw = some f) (hl : pyStrptime lw = some l) (hfl : f < l) :
    generate_dates s w = .ok [] ∧
      nearestDiv7 ((f : Int) - l) ≤ 0 ∧
      scrape_billboard fw lw url fetch = .ok [] := by
  refine ⟨?_, nearestDiv7_nonpos (by omega), ?_⟩
  · rw [generate_dates_parse s w o hs]
    have : w.toNat = 0 := by omega
    rw [this]
    rfl
  · exact scrape_billboard_ok_nil fw lw url fetch f l hf hl (by omega)

/-- C10, witness: week count `-3`, and the inverted pair `2019-04-28` /
`2019-05-12`. -/
theorem nonpos_weeks_empty_witness :
    pyStrptime "2000-06-01" = some (pyToOrdinal 2000 6 1) ∧
    pyStrptime "2019-04-28" = some (pyToOrdinal 2019 4 28) ∧
    pyStrptime "2019-05-12" = some (pyToOrdinal 2019 5 12) ∧
    generate_dates "2000-06-01" (-3) = .ok [] ∧
      nearestDiv7 ((pyToOrdinal 2019 4 28 : Int) - pyToOrdinal 2019 5 12) ≤ 0 ∧
      scrape_billboard "2019-04-28" "2019-05-12" "u" (fun _ => []) = .ok [] :=
  ⟨by decide, by decide, by decide,
   nonpos_weeks_empty "2000-06-01" "2019-04-28" "2019-05-12" "u" (fun _ => []) (-3)
     (pyToOrdinal 2000 6 1) (pyToOrdinal 2019 4 28) (pyToOrdinal 2019 5 12)
     (by decide) (by decide) (by decide) (by decide) (by decide)⟩

/-- Boolean test that a string is the decimal numeral of a positive integer. -/
def isPosIntText (s : String) : Bool :=
  !s.data.isEmpty && s.data.all Char.isDigit && s.data.any fun c => c != '0'

/-- C4, counterexample: a fetched page whose markup contains one title element
but no artist element yields a `WeekRecord` whose titles and artists columns
have different lengths — the three class-based selections are independent, so
nothing forces the four columns to agree. -/
theorem scrape_week_lengths_cex :
    ¬ ((scrape_week (fun _ => [(titleClass, "Song A")]) "https://x/2020-01-01").songs.length =
        (scrape_week (fun _ => [(titleClass, "Song A")]) "https://x/2020-01-01").artists.length) := by
  decide

/-- C4 (amended): the week-identifier column always has exactly the length of
the titles column (it is built as `len(songlist)` copies of the URL suffix),
but the titles, artists and ranks columns merely follow the respective element
counts of the page and need not agree with one another. -/
theorem scrape_week_weeks_length (fetch : String → Page) (url : String) :
    (scrape_week fetch url).weeks.length = (scrape_week fetch url).songs.length ∧
    (scrape_week fetch url).songs.length = (findAll (fetch url) titleClass).length ∧
    (scrape_week fetch url).artists.length = (findAll (fetch url) artistClass).length ∧
    (scrape_week fetch url).ranks.length = (findAll (fetch url) rankClass).length := by
  simp [scrape_week]

/-- C5, counterexample: a rank element whose text is `N/A` passes through as
raw text; the resulting rank entry is not a positive-integer numeral, so rank
entries are not guaranteed to be positive integers. -/
theorem scrape_week_rank_cex :
    ¬ ∀ r ∈ (scrape_week (fun _ => [(rankClass, "N/A")]) "https://x/2020-01-01").ranks,
        isPosIntText r = true := by
  decide

/-- C5 (amended): each rank entry is exactly the whitespace-trimmed raw text of
some rank-class element of the fetched page — no integer conversion or
validation is performed. -/
theorem scrape_week_rank_raw (fetch : String → Page) (url : String) (r : String)
    (hr : r ∈ (scrape_week fetch url).ranks) :
    ∃ e ∈ fetch url, e.1 = rankClass ∧ r = pyStrip e.2 := by
  simp only [scrape_week, findAll, List.map_map, List.mem_map, List.mem_filter,
    Function.comp_apply] at hr
  obtain ⟨e, ⟨he, hcls⟩, hstrip⟩ := hr
  exact ⟨e, he, by simpa using hcls, hstrip.symm⟩

/-- C5, witness for the amended theorem: the rank entry `07` of a concrete
page is the trimmed text of its rank element. -/
theorem scrape_week_rank_raw_witness :
    "07" ∈ (scrape_week (fun _ => [(rankClass, " 07 ")]) "https://x/2020-01-01").ranks ∧
    ∃ e ∈ [((rankClass : String), (" 07 " : String))], e.1 = rankClass ∧ "07" = pyStrip e.2 :=
  ⟨by decide,
   scrape_week_rank_raw (fun _ => [(rankClass, " 07 ")]) "https://x/2020-01-01" "07"
     (by decide)⟩

/-- C6 (confirmed): when the three structural selectors match nothing on the
fetched page, `scrape_week` returns the empty `WeekRecord` — all four columns
empty — and raises no error. -/
theorem scrape_week_empty (fetch : String → Page) (url : String)
    (h1 : findAll (fetch url) titleClass = []) (h2 : findAll (fetch url) artistClass = [])
    (h3 : findAll (fetch url) rankClass = []) :
    scrape_week fetch url = ⟨[], [], [], []⟩ := by
  simp [scrape_week, h1, h2, h3]

/-- C6, witness: a reachable page with no chart items (one unrelated element)
yields the empty `WeekRecord`. -/
theorem scrape_week_empty_witness :
    findAll [(("page-header" : String), ("Charts" : String))] titleClass = [] ∧
    findAll [(("page-header" : String), ("Charts" : String))] artistClass = [] ∧
    findAll [(("page-header" : String), ("Charts" : String))] rankClass = [] ∧
    scrape_week (fun _ => [("page-header", "Charts")]) "https://x/2020-01-01" =
      ⟨[], [], [], []⟩ :=
  ⟨by decide, by decide, by decide,
   scrape_week_empty (fun _ => [("page-header", "Charts")]) "https://x/2020-01-01"
     (by decide) (by decide) (by decide)⟩

/-- Joining exactly two strings with `','.join` is plain concatenation around
one comma. -/
lemma pyJoinComma_pair (w1 w2 : String) : pyJoinComma [w1, w2] = w1 ++ "," ++ w2 := by
  cases w1
  cases w2
  apply congrArg String.mk
  simp [joinC]

/-- C7 (confirmed): for EVERY pair of week records each holding one entry with
the same `(title, artist)` key but different week identifiers (date strings,
hence comma-free), aggregation yields exactly one row for that key, with the
two week identifiers comma-joined in encounter order and `week_count = 2`. -/
theorem aggregate_two_weeks_same_key (t a r1 r2 w1 w2 : String) (hw : w1 ≠ w2)
    (hc1 : ',' ∉ w1.data) (hc2 : ',' ∉ w2.data) :
    aggregate (flatten_tracks [⟨[t], [a], [r1], [w1]⟩, ⟨[t], [a], [r2], [w2]⟩]) =
      [⟨t, a, w1 ++ "," ++ w2, 2⟩] := by
  have hrows : flatten_tracks [⟨[t], [a], [r1], [w1]⟩, ⟨[t], [a], [r2], [w2]⟩] =
      [⟨t, a, r1, w1⟩, ⟨t, a, r2, w2⟩] := rfl
  rw [hrows]
  unfold aggregate
  have h3 : ([(t, a)] : List (String × String)).dedup = [(t, a)] := by
    rw [List.dedup_cons_of_not_mem (by simp), List.dedup_nil]
  have h2 : ([(t, a), (t, a)] : List (String × String)).dedup = [(t, a)] := by
    rw [List.dedup_cons_of_mem (List.mem_singleton_self _), h3]
  have h1 : ([(⟨t, a, r1, w1⟩ : Row), ⟨t, a, r2, w2⟩].map rowKey) = [(t, a), (t, a)] := rfl
  rw [h1, h2]
  have h4 : List.insertionSort keyLE [(t, a)] = [(t, a)] := rfl
  rw [h4]
  have h5 : ([(⟨t, a, r1, w1⟩ : Row), ⟨t, a, r2, w2⟩].filter
      fun r => rowKey r == ((t, a) : String × String)) =
      [⟨t, a, r1, w1⟩, ⟨t, a, r2, w2⟩] := by
    simp [List.filter, rowKey]
  rw [List.map_cons, List.map_nil, h5]
  have h6 : ([(⟨t, a, r1, w1⟩ : Row), ⟨t, a, r2, w2⟩].map Row.week) = [w1, w2] := rfl
  rw [h6]
  have h7 : pySplitComma (pyJoinComma [w1, w2]) = [w1, w2] := by
    refine pySplit_pyJoin [w1, w2] (by simp) ?_
    intro w hwm
    simp only [List.mem_cons, List.not_mem_nil, or_false] at hwm
    rcases hwm with rfl | rfl
    · exact hc1
    · exact hc2
  show [(⟨t, a, pyJoinComma [w1, w2],
      (pySplitComma (pyJoinComma [w1, w2])).length⟩ : TrackRow)] =
    [⟨t, a, w1 ++ "," ++ w2, 2⟩]
  rw [h7, pyJoinComma_pair]
  rfl

/-- C7, witness at the spec's scenario: weeks A and B for `("Song X",
"Artist Y")` aggregate to the single row with both week identifiers joined
and `week_count = 2`. -/
theorem aggregate_two_weeks_same_key_witness :
    ("2020-01-01" : String) ≠ "2020-01-08" ∧
    ',' ∉ ("2020-01-01" : String).data ∧ ',' ∉ ("2020-01-08" : String).data ∧
    aggregate (flatten_tracks
      [⟨["Song X"], ["Artist Y"], ["1"], ["2020-01-01"]⟩,
       ⟨["Song X"], ["Artist Y"], ["3"], ["2020-01-08"]⟩]) =
      [⟨"Song X", "Artist Y", "2020-01-01" ++ "," ++ "2020-01-08", 2⟩] :=
  ⟨by decide, by decide, by decide,
   aggregate_two_weeks_same_key "Song X" "Artist Y" "1" "3" "2020-01-01" "2020-01-08"
     (by decide) (by decide) (by decide)⟩

/-- C8 (confirmed): with week identifiers that are date strings (hence free of
commas), every aggregated row's `week_count` equals the number of flattened
input rows carrying its `(title, artist)` key — the number of week identifiers
recorded for it — and is positive, so no zero-appearance row exists. -/
theorem aggregate_week_count_invariant (records : List WeekRecord)
    (hc : ∀ r ∈ flatten_tracks records, ',' ∉ r.week.data) :
    ∀ t ∈ aggregate (flatten_tracks records),
      t.week_count =
        ((flatten_tracks records).filter fun r => rowKey r == (t.title, t.artist)).length ∧
      0 < t.week_count := by
  intro t ht
  unfold aggregate at ht
  rw [List.mem_map] at ht
  obtain ⟨k, hk, rfl⟩ := ht
  have hkmem : k ∈ (flatten_tracks records).map rowKey :=
    List.mem_dedup.mp ((List.mem_insertionSort keyLE).mp hk)
  obtain ⟨r0, hr0, hr0k⟩ := List.mem_map.mp hkmem
  have hfil : r0 ∈ (flatten_tracks records).filter fun r => rowKey r == k :=
    List.mem_filter.mpr ⟨hr0, by simp [hr0k]⟩
  have hfilne : (flatten_tracks records).filter (fun r => rowKey r == k) ≠ [] :=
    List.ne_nil_of_mem hfil
  show (pySplitComma (pyJoinComma
      (((flatten_tracks records).filter fun r => rowKey r == k).map Row.week))).length =
      ((flatten_tracks records).filter fun r => rowKey r == k).length ∧
    0 < (pySplitComma (pyJoinComma
      (((flatten_tracks records).filter fun r => rowKey r == k).map Row.week))).length
  have hwsne : ((flatten_tracks records).filter fun r => rowKey r == k).map Row.week ≠ [] :=
    fun h => hfilne (List.map_eq_nil.mp h)
  have hcws : ∀ w ∈ ((flatten_tracks records).filter fun r => rowKey r == k).map Row.week,
      ',' ∉ w.data := by
    intro w hw
    obtain ⟨r, hr, rfl⟩ := List.mem_map.mp hw
    exact hc r (List.mem_filter.mp hr).1
  rw [pySplit_pyJoin _ hwsne hcws, List.length_map]
  exact ⟨rfl, List.length_pos.mpr hfilne⟩

/-- C8, witness on one concrete record: the aggregated row for `("A", "B")`
has `week_count` equal to its one recorded week, and it is positive. -/
theorem aggregate_week_count_invariant_witness :
    (∀ r ∈ flatten_tracks [(⟨["A"], ["B"], ["1"], ["2020-02-02"]⟩ : WeekRecord)],
        ',' ∉ r.week.data) ∧
    (⟨"A", "B", "2020-02-02", 1⟩ : TrackRow) ∈
      aggregate (flatten_tracks [(⟨["A"], ["B"], ["1"], ["2020-02-02"]⟩ : WeekRecord)]) ∧
    ((⟨"A", "B", "2020-02-02", 1⟩ : TrackRow).week_count =
      ((flatten_tracks [(⟨["A"], ["B"], ["1"], ["2020-02-02"]⟩ : WeekRecord)]).filter
        fun r => rowKey r == (("A" : String), ("B" : String))).length ∧
      0 < (⟨"A", "B", "2020-02-02", 1⟩ : TrackRow).week_count) :=
  ⟨by decide, by decide,
   aggregate_week_count_invariant [(⟨["A"], ["B"], ["1"], ["2020-02-02"]⟩ : WeekRecord)]
     (by decide) (⟨"A", "B", "2020-02-02", 1⟩ : TrackRow) (by decide)⟩

/-- C9 (confirmed): the aggregation is a pure function of its input — running
it twice on the same list yields identical output — and its row order is
reproducible: the output rows are sorted by the `(title, artist)` grouping
key in the lexicographic order pandas uses. -/
theorem aggregate_deterministic (records : List WeekRecord) :
    aggregate (flatten_tracks records) = aggregate (flatten_tracks records) ∧
    List.Sorted keyLE
      ((aggregate (flatten_tracks records)).map fun t => (t.title, t.artist)) := by
  refine ⟨rfl, ?_⟩
  have hmap : ((aggregate (flatten_tracks records)).map fun t => (t.title, t.artist)) =
      ((flatten_tracks records).map rowKey).dedup.insertionSort keyLE := by
    unfold aggregate
    rw [List.map_map]
    exact (List.map_congr_left fun k _ => rfl).trans (List.map_id _)
  rw [hmap]
  exact List.sorted_insertionSort keyLE _

end Billboard
